import Mathlib

/-!
Verification of the position-and-settlement engine (`output/backend/`).

Python `Decimal` values are modelled as exact rationals (`ℚ`): the backend
sets `getcontext().prec = 28`, and for the magnitudes exercised by the
specified operations no context-precision rounding ever triggers, so
`Decimal` arithmetic coincides with exact rational arithmetic followed by
the explicit `quantize` calls, which are modelled by `quantCent` / `quantQty`
below.  `ROUND_HALF_UP` is round-to-nearest with ties away from zero.
-/

/-- A decidable equality for `Except`, used to evaluate the embedded
operations on concrete inputs. -/
instance {ε α : Type} [DecidableEq ε] [DecidableEq α] : DecidableEq (Except ε α) := fun x y =>
  match x, y with
  | .error a, .error b =>
    if h : a = b then .isTrue (by rw [h]) else .isFalse (by intro hc; cases hc; exact h rfl)
  | .error _, .ok _ => .isFalse (by intro hc; cases hc)
  | .ok _, .error _ => .isFalse (by intro hc; cases hc)
  | .ok a, .ok b =>
    if h : a = b then .isTrue (by rw [h]) else .isFalse (by intro hc; cases hc; exact h rfl)

/-- `ROUND_HALF_UP` of a rational to an integer: round to the nearest
integer, ties away from zero (Python's `decimal.ROUND_HALF_UP`). -/
def roundHalfUp (x : ℚ) : ℤ :=
  if 0 ≤ x then ⌊x + 1/2⌋ else -⌊-x + 1/2⌋

/-- `value.quantize(Decimal('0.01'), rounding=ROUND_HALF_UP)`: the body of
`_to_decimal` (accounts.py, transaction.py) and `_to_decimal_cents`
(validators.py, valuation.py) once the input has been parsed. -/
def quantCent (x : ℚ) : ℚ := (roundHalfUp (x * 100) : ℚ) / 100

/-- `value.quantize(Decimal('0.00000001'), rounding=ROUND_HALF_UP)`: the body
of `_to_quantity` (transaction.py, validators.py). -/
def quantQty (x : ℚ) : ℚ := (roundHalfUp (x * 100000000) : ℚ) / 100000000

/-- A rational representable with two fractional decimal digits (a whole
number of cents), the normal form of every monetary `Decimal` in the code. -/
def IsCent (x : ℚ) : Prop := ∃ n : ℤ, x = (n : ℚ) / 100

theorem roundHalfUp_intCast (n : ℤ) : roundHalfUp (n : ℚ) = n := by
  unfold roundHalfUp
  have hhalf : ⌊(1/2 : ℚ)⌋ = 0 := by
    rw [Int.floor_eq_iff]
    norm_num
  by_cases h : 0 ≤ (n : ℚ)
  · rw [if_pos h, Int.floor_int_add, hhalf, add_zero]
  · rw [if_neg h]
    have : -(n : ℚ) + 1/2 = ((-n : ℤ) : ℚ) + 1/2 := by push_cast; ring
    rw [this, Int.floor_int_add, hhalf, add_zero, neg_neg]

theorem quantCent_isCent (x : ℚ) : IsCent (quantCent x) :=
  ⟨roundHalfUp (x * 100), rfl⟩

theorem quantCent_eq_self {x : ℚ} (h : IsCent x) : quantCent x = x := by
  obtain ⟨n, rfl⟩ := h
  unfold quantCent
  have h100 : ((n : ℚ) / 100) * 100 = (n : ℚ) := by
    field_simp
  rw [h100, roundHalfUp_intCast]

theorem IsCent.add {x y : ℚ} (hx : IsCent x) (hy : IsCent y) : IsCent (x + y) := by
  obtain ⟨n, rfl⟩ := hx
  obtain ⟨m, rfl⟩ := hy
  exact ⟨n + m, by push_cast; ring⟩

theorem IsCent.sub {x y : ℚ} (hx : IsCent x) (hy : IsCent y) : IsCent (x - y) := by
  obtain ⟨n, rfl⟩ := hx
  obtain ⟨m, rfl⟩ := hy
  exact ⟨n - m, by push_cast; ring⟩

theorem IsCent.zero : IsCent 0 := ⟨0, by norm_num⟩

/-- Re-quantizing an already quantized value is the identity. -/
theorem quantCent_idem (x : ℚ) : quantCent (quantCent x) = quantCent x :=
  quantCent_eq_self (quantCent_isCent x)

/-!
## Ledger entries — transaction.py

`Transaction` is a frozen dataclass; all validation happens once, in
`__post_init__`.  Timestamps and free-form metadata play no part in the
claims and are omitted.  Field types follow the dataclass declaration:
`quantity`, `price`, `profit_loss` are `Optional[Decimal]` (`Option ℚ`),
`amount` is `Decimal` with default `Decimal('0.00')`, `account_id` is
`Optional[str]` (and Python's `not self.account_id` is also true for `''`).
-/

/-- The `InvalidTransactionError` reasons raised by `Transaction.__post_init__`,
one constructor per `raise` site reachable with these field types. -/
inductive TxErr
  | invalidKind
  | cashRequiresAccount
  | nonpositiveCashAmount
  | cashHasQuantityOrPrice
  | tradeRequiresAccount
  | tradeRequiresQuantity
  | tradeRequiresPrice
  | invalidQuantityValue
  | invalidPriceValue
  | invalidSide
  deriving DecidableEq, Repr

/-- The validated fields of a `Transaction` (transaction.py lines 81-102). -/
structure Tx where
  kind : String
  account_id : Option String := none
  quantity : Option ℚ := none
  price : Option ℚ := none
  amount : ℚ := 0
  profit_loss : Option ℚ := none
  deriving DecidableEq, Repr

/-- Python's `not self.account_id`: true for `None` and for `''`. -/
def accountFalsy : Option String → Bool
  | none => true
  | some s => s = ""

/-- `Transaction.__post_init__` (transaction.py lines 107-176), embedded
exactly as the source is indented: the whole trade-validation block
(lines 140-176, from `else:  # buy or sell` on) is nested INSIDE the
`if self.kind in ("deposit", "withdrawal"):` branch, as the `else` arm of
`if self.quantity is not None or self.price is not None:`.  Consequently a
cash entry whose quantity and price are absent falls into the "buy or sell"
arm and hits `raise InvalidTransactionError("trade transaction requires
quantity")`, while a `buy`/`sell` entry skips every check and is returned
unchanged. -/
def txPostInit (t : Tx) : Except TxErr Tx :=
  if ¬ (t.kind = "deposit" ∨ t.kind = "withdrawal" ∨ t.kind = "buy" ∨ t.kind = "sell") then
    .error .invalidKind
  else if t.kind = "deposit" ∨ t.kind = "withdrawal" then
    if accountFalsy t.account_id then .error .cashRequiresAccount
    else
      let amt := quantCent t.amount
      if amt ≤ 0 then .error .nonpositiveCashAmount
      else if t.quantity.isSome ∨ t.price.isSome then .error .cashHasQuantityOrPrice
      else
        -- the mis-indented `else:  # buy or sell` arm: account_id was already
        -- checked non-falsy above, and quantity is necessarily `None` here
        .error .tradeRequiresQuantity
  else
    .ok t

/-- Concrete evaluation of `quantCent` at a nonnegative input: `n` is the
result in cents when it encloses `x*100 + 1/2` from below within 1. -/
theorem quantCent_eq_of_nonneg {x : ℚ} (n : ℤ) (hx : 0 ≤ x)
    (h1 : (n : ℚ) ≤ x * 100 + 1/2) (h2 : x * 100 + 1/2 < (n : ℚ) + 1) :
    quantCent x = (n : ℚ) / 100 := by
  unfold quantCent roundHalfUp
  have hx' : 0 ≤ x * 100 := by positivity
  rw [if_pos hx']
  have hfl : ⌊x * 100 + 1/2⌋ = n := by
    rw [Int.floor_eq_iff]
    exact ⟨h1, by exact_mod_cast h2⟩
  rw [hfl]

theorem quantCent_zero : quantCent 0 = 0 :=
  quantCent_eq_self ⟨0, by norm_num⟩

/-- C1: the claim fails on the code.  A deposit with a non-empty
`account_id`, amount `10.125` (positive after quantization: `10.13`) and
quantity/price absent does NOT construct: `__post_init__` raises
`InvalidTransactionError("trade transaction requires quantity")`, because the
trade-validation block is mis-indented inside the cash branch.  In fact every
`deposit`/`withdrawal` construction fails, whatever the fields. -/
theorem c1_cash_entry_never_constructs :
    txPostInit { kind := "deposit", account_id := some "acct-1", amount := 10125/1000 }
      = .error .tradeRequiresQuantity
    ∧ 0 < quantCent (10125/1000)
    ∧ (∀ (acc : Option String) (q p pl : Option ℚ) (amt : ℚ), ∃ e,
        txPostInit { kind := "deposit", account_id := acc, quantity := q, price := p,
                     amount := amt, profit_loss := pl } = .error e)
    ∧ (∀ (acc : Option String) (q p pl : Option ℚ) (amt : ℚ), ∃ e,
        txPostInit { kind := "withdrawal", account_id := acc, quantity := q, price := p,
                     amount := amt, profit_loss := pl } = .error e) := by
  have ha : quantCent (10125/1000 : ℚ) = 1013/100 :=
    quantCent_eq_of_nonneg 1013 (by norm_num) (by norm_num) (by norm_num)
  refine ⟨?_, ?_, ?_, ?_⟩
  · simp [txPostInit, accountFalsy, ha]
  · rw [ha]; norm_num
  · intro acc q p pl amt
    unfold txPostInit
    norm_num
    cases hAF : accountFalsy acc with
    | true => exact ⟨_, rfl⟩
    | false =>
      by_cases hamt : quantCent amt ≤ 0
      · simp [hamt]
      · by_cases hqp : q.isSome ∨ p.isSome
        · simp [hamt, hqp]
        · simp [hamt, hqp]
  · intro acc q p pl amt
    unfold txPostInit
    norm_num
    cases hAF : accountFalsy acc with
    | true => exact ⟨_, rfl⟩
    | false =>
      by_cases hamt : quantCent amt ≤ 0
      · simp [hamt]
      · by_cases hqp : q.isSome ∨ p.isSome
        · simp [hamt, hqp]
        · simp [hamt, hqp]

/-- C2: the claim fails on the code.  Because the trade-validation block is
mis-indented into the cash branch, `__post_init__` performs NO validation for
kinds `buy`/`sell`: an entry with no `account_id`, no `quantity` and no
`price` constructs successfully (its `amount` stays at the default `0.00`),
and so does one whose quantity is `0`; nothing is quantized and `amount` is
never set to `quantity*price`. -/
theorem c2_trade_entry_skips_validation :
    txPostInit { kind := "buy" } = .ok { kind := "buy" }
    ∧ txPostInit { kind := "sell", account_id := some "x", quantity := some 0, price := some 1 }
      = .ok { kind := "sell", account_id := some "x", quantity := some 0, price := some 1 }
    ∧ (Tx.mk "buy" none none none 0 none).amount = 0 := by
  refine ⟨?_, ?_, rfl⟩ <;> simp [txPostInit]

/-- C8: the claim fails on the code.  A successfully constructed `buy` entry
keeps its fields exactly as passed: price `3.333` is NOT quantized to cents
(`quantCent 3.333 = 3.33 ≠ 3.333`) and `amount` stays `0.00` instead of
`quantity*price`.  The last conjunct records the true half of the claim:
re-quantization of an already-quantized value is the identity. -/
theorem c8_trade_fields_not_requantized :
    txPostInit { kind := "buy", account_id := some "x", quantity := some 1,
                 price := some (3333/1000) }
      = .ok { kind := "buy", account_id := some "x", quantity := some 1,
              price := some (3333/1000) }
    ∧ quantCent (3333/1000) ≠ 3333/1000
    ∧ (∀ x : ℚ, quantCent (quantCent x) = quantCent x) := by
  refine ⟨by simp [txPostInit], ?_, fun x => quantCent_idem x⟩
  have h : quantCent (3333/1000 : ℚ) = 333/100 :=
    quantCent_eq_of_nonneg 333 (by norm_num) (by norm_num) (by norm_num)
  rw [h]
  norm_num

/-!
## Cash accounts — accounts.py

`Account.deposit` / `Account.withdraw` (accounts.py lines 99-126): amounts
are parsed and cent-quantized by `_to_decimal`, rejected when `<= 0`; a
withdrawal larger than the balance raises `InsufficientFundsError`; the
updated balance is re-quantized on store.  The per-account lock makes each
call atomic; a sequence of calls is modelled as a fold.
-/

inductive AccErr
  | invalidAmount
  | insufficientFunds
  deriving DecidableEq, Repr

/-- `Account.deposit` acting on the balance. -/
def acctDeposit (balance : ℚ) (amount : ℚ) : Except AccErr ℚ :=
  let a := quantCent amount
  if a ≤ 0 then .error .invalidAmount
  else .ok (quantCent (balance + a))

/-- `Account.withdraw` acting on the balance. -/
def acctWithdraw (balance : ℚ) (amount : ℚ) : Except AccErr ℚ :=
  let a := quantCent amount
  if a ≤ 0 then .error .invalidAmount
  else if balance < a then .error .insufficientFunds
  else .ok (quantCent (balance - a))

/-- One cash operation issued to an account. -/
inductive CashOp
  | dep : ℚ → CashOp
  | wd : ℚ → CashOp
  deriving DecidableEq, Repr

/-- Run a sequence of deposits/withdrawals, stopping at the first failure. -/
def runOps : ℚ → List CashOp → Except AccErr ℚ
  | b, [] => .ok b
  | b, .dep a :: rest =>
    match acctDeposit b a with
    | .ok b2 => runOps b2 rest
    | .error e => .error e
  | b, .wd a :: rest =>
    match acctWithdraw b a with
    | .ok b2 => runOps b2 rest
    | .error e => .error e

/-- Sum of the individually cent-quantized deposit amounts minus the
individually cent-quantized withdrawal amounts. -/
def netSum : List CashOp → ℚ
  | [] => 0
  | .dep a :: rest => quantCent a + netSum rest
  | .wd a :: rest => netSum rest - quantCent a

theorem runOps_ok_spec (ops : List CashOp) : ∀ b b', IsCent b → 0 ≤ b →
    runOps b ops = .ok b' → IsCent b' ∧ 0 ≤ b' ∧ b' = b + netSum ops := by
  induction ops with
  | nil =>
    intro b b' hc hnn h
    simp only [runOps] at h
    cases h
    exact ⟨hc, hnn, by simp [netSum]⟩
  | cons op rest ih =>
    cases op with
    | dep a =>
      intro b b' hc hnn h
      by_cases hq : quantCent a ≤ 0
      · simp [runOps, acctDeposit, hq] at h
      · simp only [runOps, acctDeposit, if_neg hq] at h
        have hcent : IsCent (b + quantCent a) := hc.add (quantCent_isCent a)
        rw [quantCent_eq_self hcent] at h
        have hpos : 0 < quantCent a := lt_of_not_le hq
        obtain ⟨h1, h2, h3⟩ := ih (b + quantCent a) b' hcent (by linarith) h
        refine ⟨h1, h2, ?_⟩
        rw [h3]
        simp [netSum]
        ring
    | wd a =>
      intro b b' hc hnn h
      by_cases hq : quantCent a ≤ 0
      · simp [runOps, acctWithdraw, hq] at h
      · by_cases hb : b < quantCent a
        · simp [runOps, acctWithdraw, if_neg hq, hb] at h
        · simp only [runOps, acctWithdraw, if_neg hq, if_neg hb] at h
          have hcent : IsCent (b - quantCent a) := hc.sub (quantCent_isCent a)
          rw [quantCent_eq_self hcent] at h
          have hge : quantCent a ≤ b := le_of_not_lt hb
          obtain ⟨h1, h2, h3⟩ := ih (b - quantCent a) b' hcent (by linarith) h
          refine ⟨h1, h2, ?_⟩
          rw [h3]
          simp [netSum]
          ring

theorem runOps_append (pre : List CashOp) : ∀ b suf c,
    runOps b (pre ++ suf) = .ok c → ∃ m, runOps b pre = .ok m ∧ runOps m suf = .ok c := by
  induction pre with
  | nil =>
    intro b suf c h
    exact ⟨b, rfl, h⟩
  | cons op rest ih =>
    intro b suf c h
    cases op with
    | dep a =>
      simp only [List.cons_append, runOps] at h ⊢
      cases hstep : acctDeposit b a with
      | ok b2 => rw [hstep] at h; exact ih b2 suf c h
      | error e => rw [hstep] at h; cases h
    | wd a =>
      simp only [List.cons_append, runOps] at h ⊢
      cases hstep : acctWithdraw b a with
      | ok b2 => rw [hstep] at h; exact ih b2 suf c h
      | error e => rw [hstep] at h; cases h

/-- C3: for every sequence of successful deposits/withdrawals starting from
balance `0`, the balance is non-negative after every successful prefix and
the final balance is the sum of the individually cent-quantized deposit
amounts minus the cent-quantized withdrawal amounts; a non-positive
(post-quantization) deposit is rejected with `InvalidAmountError`; a
withdrawal exceeding the balance fails with `InsufficientFundsError` (and,
the embedding being purely functional, an error leaves the balance keyword
untouched). -/
theorem c3_cash_account_invariants :
    (∀ ops b, runOps 0 ops = .ok b → 0 ≤ b ∧ b = netSum ops)
    ∧ (∀ pre suf b, runOps 0 (pre ++ suf) = .ok b →
        ∃ m, runOps 0 pre = .ok m ∧ 0 ≤ m)
    ∧ (∀ (b a : ℚ), quantCent a ≤ 0 → acctDeposit b a = .error .invalidAmount)
    ∧ (∀ (b a : ℚ), 0 ≤ b → b < quantCent a → acctWithdraw b a = .error .insufficientFunds) := by
  refine ⟨?_, ?_, ?_, ?_⟩
  · intro ops b h
    obtain ⟨_, h2, h3⟩ := runOps_ok_spec ops 0 b IsCent.zero le_rfl h
    exact ⟨h2, by rw [h3, zero_add]⟩
  · intro pre suf b h
    obtain ⟨m, hm, _⟩ := runOps_append pre 0 suf b h
    obtain ⟨_, h2, _⟩ := runOps_ok_spec pre 0 m IsCent.zero le_rfl hm
    exact ⟨m, hm, h2⟩
  · intro b a hq
    simp [acctDeposit, hq]
  · intro b a hb hlt
    have hq : ¬ quantCent a ≤ 0 := by
      intro hle
      exact absurd (lt_of_le_of_lt hb hlt) (not_lt.mpr hle)
    simp [acctWithdraw, if_neg hq, hlt]

/-- Witness for C3 at concrete inputs: the sequence
`[deposit 10.125, withdraw 3]` succeeds with final balance `7.13`
(`10.125` quantizes to `10.13`), a deposit of `-1` is rejected as an invalid
amount, and withdrawing `20` from balance `10` fails as insufficient funds. -/
theorem c3_cash_account_invariants_witness :
    (0 ≤ (713/100 : ℚ) ∧ (713/100 : ℚ) = netSum [CashOp.dep (81/8), CashOp.wd 3])
    ∧ acctDeposit 5 (-1) = .error .invalidAmount
    ∧ acctWithdraw 10 20 = .error .insufficientFunds := by
  have e1 : quantCent (81/8 : ℚ) = 1013/100 :=
    quantCent_eq_of_nonneg 1013 (by norm_num) (by norm_num) (by norm_num)
  have e3 : quantCent (3 : ℚ) = 3 := quantCent_eq_self ⟨300, by norm_num⟩
  have s1 : quantCent ((0:ℚ) + 1013/100) = 1013/100 := by
    rw [zero_add]
    exact quantCent_eq_self ⟨1013, by norm_num⟩
  have s2 : quantCent ((1013/100:ℚ) - 3) = 713/100 := by
    have h : (1013/100:ℚ) - 3 = 713/100 := by norm_num
    rw [h]
    exact quantCent_eq_self ⟨713, by norm_num⟩
  have em1 : quantCent (-1 : ℚ) ≤ 0 := by
    rw [quantCent_eq_self ⟨-100, by norm_num⟩]
    norm_num
  have e20 : quantCent (20 : ℚ) = 20 := quantCent_eq_self ⟨2000, by norm_num⟩
  refine ⟨c3_cash_account_invariants.1 [CashOp.dep (81/8), CashOp.wd 3] (713/100) ?_,
    c3_cash_account_invariants.2.2.1 5 (-1) em1,
    c3_cash_account_invariants.2.2.2 10 20 (by norm_num) ?_⟩
  · have step1 : acctDeposit 0 (81/8) = .ok (1013/100) := by
      simp only [acctDeposit, e1]
      rw [if_neg (by norm_num), s1]
    have step2 : acctWithdraw (1013/100) 3 = .ok (713/100) := by
      simp only [acctWithdraw, e3]
      rw [if_neg (by norm_num), if_neg (by norm_num), s2]
    simp only [runOps, step1, step2]
  · rw [e20]
    norm_num

/-!
## Holdings — holding.py (module absent from the sources)

`portfolio.py` imports `Holding` from `.holding` and `tests/test_holding.py`
exercises it, but the module itself is not among the source files, so it is
modelled from the spec (§4.3, §3, scenarios A/B).
-/

/-- An 8-decimal-place quantity (the `Decimal('0.00000001')` grid). -/
def IsQty (x : ℚ) : Prop := ∃ n : ℤ, x = (n : ℚ) / 100000000

theorem quantQty_isQty (x : ℚ) : IsQty (quantQty x) :=
  ⟨roundHalfUp (x * 100000000), rfl⟩

theorem quantQty_eq_self {x : ℚ} (h : IsQty x) : quantQty x = x := by
  obtain ⟨n, rfl⟩ := h
  unfold quantQty
  have h8 : ((n : ℚ) / 100000000) * 100000000 = (n : ℚ) := by
    field_simp
  rw [h8, roundHalfUp_intCast]

theorem quantQty_eq_of_nonneg {x : ℚ} (n : ℤ) (hx : 0 ≤ x)
    (h1 : (n : ℚ) ≤ x * 100000000 + 1/2) (h2 : x * 100000000 + 1/2 < (n : ℚ) + 1) :
    quantQty x = (n : ℚ) / 100000000 := by
  unfold quantQty roundHalfUp
  have hx8 : 0 ≤ x * 100000000 := by positivity
  rw [if_pos hx8]
  have hfl : ⌊x * 100000000 + 1/2⌋ = n := by
    rw [Int.floor_eq_iff]
    exact ⟨h1, by exact_mod_cast h2⟩
  rw [hfl]

/-- A single-symbol position (spec §3). -/
structure Holding where
  symbol : String
  quantity : ℚ
  average_cost : ℚ
  deriving DecidableEq, Repr

inductive HoldErr
  | invalidQuantity
  | invalidPrice
  | insufficientQuantity
  deriving DecidableEq, Repr

/-- Modelled from the spec: `holding.py` is missing from the sources (only
`portfolio.py`'s import and `tests/test_holding.py` are present).  Spec §4.3
with §3's quantization invariants: `buy(quantity, price)` validates the
8-dp-quantized quantity `> 0` (else `InvalidQuantity`) and the cent-quantized
price `> 0` (else `InvalidPrice`), then sets
`new_avg = round_half_up_cents((old_qty*old_avg + qty*price)/(old_qty+qty))`
and `new quantity = old_qty + qty` (scenario A; the price is quantized to
cents before use, as in scenario B and `test_holding.py`). -/
def Holding.buy (h : Holding) (quantity price : ℚ) : Except HoldErr Holding :=
  let q := quantQty quantity
  let p := quantCent price
  if q ≤ 0 then .error .invalidQuantity
  else if p ≤ 0 then .error .invalidPrice
  else
    let newq := h.quantity + q
    .ok { h with quantity := newq,
                 average_cost := quantCent ((h.quantity * h.average_cost + q * p) / newq) }

/-- Modelled from the spec: `holding.py` is missing from the sources.  Spec
§4.3: `sell(quantity, price)` validates quantity `> 0`, price `> 0` and
quantity `≤` held quantity (else `InsufficientQuantity`); realized P/L is
`round_half_up_cents((price - average_cost) * quantity)`; the quantity is
reduced, and `average_cost` resets to zero exactly when the quantity reaches
zero (scenario B; price cent-quantized before use). -/
def Holding.sell (h : Holding) (quantity price : ℚ) : Except HoldErr (Holding × ℚ) :=
  let q := quantQty quantity
  let p := quantCent price
  if q ≤ 0 then .error .invalidQuantity
  else if p ≤ 0 then .error .invalidPrice
  else if h.quantity < q then .error .insufficientQuantity
  else
    let pnl := quantCent ((p - h.average_cost) * q)
    let newq := h.quantity - q
    .ok ({ h with quantity := newq,
                  average_cost := if newq = 0 then 0 else h.average_cost }, pnl)

/-- C5: `Holding.buy` adds the normalized quantity and recomputes the
weighted-average cost, cent-quantized with round-half-up; concretely, buying
`2.5` at `3.333` on an empty holding yields quantity `2.5` and average cost
`3.33` (scenario A). -/
theorem c5_holding_buy_weighted_average :
    (∀ (h : Holding) (q p : ℚ), 0 < quantQty q → 0 < quantCent p →
      Holding.buy h q p = .ok ⟨h.symbol, h.quantity + quantQty q,
        quantCent ((h.quantity * h.average_cost + quantQty q * quantCent p) /
          (h.quantity + quantQty q))⟩)
    ∧ Holding.buy ⟨"TSLA", 0, 0⟩ (5/2) (3333/1000) = .ok ⟨"TSLA", 5/2, 333/100⟩
    ∧ Holding.buy ⟨"GOOG", 2, 3⟩ 1 4 = .ok ⟨"GOOG", 3, 333/100⟩ := by
  refine ⟨?_, ?_, ?_⟩
  · intro h q p hq hp
    simp only [Holding.buy]
    rw [if_neg (not_le.mpr hq), if_neg (not_le.mpr hp)]
  · have hq : quantQty (5/2 : ℚ) = 5/2 := quantQty_eq_self ⟨250000000, by norm_num⟩
    have hp : quantCent (3333/1000 : ℚ) = 333/100 :=
      quantCent_eq_of_nonneg 333 (by norm_num) (by norm_num) (by norm_num)
    simp only [Holding.buy, hq, hp]
    rw [if_neg (by norm_num), if_neg (by norm_num)]
    have harg : ((0:ℚ) * 0 + 5/2 * (333/100)) / (0 + 5/2) = 333/100 := by norm_num
    rw [harg, quantCent_eq_self ⟨333, by norm_num⟩]
    norm_num
  · have hq : quantQty (1 : ℚ) = 1 := quantQty_eq_self ⟨100000000, by norm_num⟩
    have hp : quantCent (4 : ℚ) = 4 := quantCent_eq_self ⟨400, by norm_num⟩
    simp only [Holding.buy, hq, hp]
    rw [if_neg (by norm_num), if_neg (by norm_num)]
    have harg : ((2:ℚ) * 3 + 1 * 4) / (2 + 1) = 10/3 := by norm_num
    have havg : quantCent (10/3 : ℚ) = 333/100 :=
      quantCent_eq_of_nonneg 333 (by norm_num) (by norm_num) (by norm_num)
    rw [harg, havg]
    norm_num

/-!
## Portfolios — portfolio.py

The holdings mapping (`_holdings : Dict[str, Holding]`) is modelled as an
association list with unique keys; `_normalize_symbol` raises `ValueError`
for an empty symbol and otherwise strips whitespace.
-/

inductive PortErr
  | valueError
  | portfolioNotFound
  | holdingErr (e : HoldErr)
  deriving DecidableEq, Repr

/-- Python `str.strip()`: drop leading and trailing whitespace.  (`String.trim`
is extensionally the same but its UTF-8 iterator form does not reduce;
the character-list form is used so concrete symbols evaluate.) -/
def pyStrip (s : String) : String :=
  ⟨((s.data.dropWhile Char.isWhitespace).reverse.dropWhile Char.isWhitespace).reverse⟩

/-- Python `str.upper()` for the ASCII symbols used by the backend. -/
def pyUpper (s : String) : String := ⟨s.data.map Char.toUpper⟩

/-- `Portfolio._normalize_symbol` (portfolio.py lines 59-62). -/
def normSymbol (symbol : String) : Except PortErr String :=
  if symbol = "" then .error .valueError else .ok (pyStrip symbol)

/-- `Portfolio.sell` (portfolio.py lines 114-130): missing holding raises
`PortfolioNotFoundError`; otherwise delegates to `Holding.sell` and deletes
the mapping entry when the resulting quantity is exactly zero. -/
def portSell (hs : List (String × Holding)) (symbol : String) (quantity price : ℚ) :
    Except PortErr (List (String × Holding) × ℚ) :=
  match normSymbol symbol with
  | .error e => .error e
  | .ok sym =>
    match hs.lookup sym with
    | none => .error .portfolioNotFound
    | some h =>
      match h.sell quantity price with
      | .error e => .error (.holdingErr e)
      | .ok (h2, pnl) =>
        if h2.quantity = 0 then .ok (hs.filter (fun kv => kv.1 != sym), pnl)
        else .ok (hs.map (fun kv => if kv.1 == sym then (kv.1, h2) else kv), pnl)

/-- `Portfolio.buy` (portfolio.py lines 97-112): creates a zero holding on
first reference, then delegates to `Holding.buy`.  (When `Holding.buy`
raises on a freshly created symbol the Python dict keeps the zero holding;
that error path is not exercised by any claim here.) -/
def portBuy (hs : List (String × Holding)) (symbol : String) (quantity : Option ℚ)
    (price : ℚ) : Except PortErr (List (String × Holding)) :=
  match normSymbol symbol with
  | .error e => .error e
  | .ok sym =>
    match quantity with
    | none => .error (.holdingErr .invalidQuantity)
    | some q =>
      match hs.lookup sym with
      | some h =>
        match h.buy q price with
        | .error e => .error (.holdingErr e)
        | .ok h2 => .ok (hs.map (fun kv => if kv.1 == sym then (kv.1, h2) else kv))
      | none =>
        match Holding.buy ⟨sym, 0, 0⟩ q price with
        | .error e => .error (.holdingErr e)
        | .ok h2 => .ok (hs ++ [(sym, h2)])

theorem lookup_filter_self (hs : List (String × Holding)) (s : String) :
    (hs.filter (fun kv => kv.1 != s)).lookup s = none := by
  induction hs with
  | nil => rfl
  | cons kv rest ih =>
    by_cases h : kv.1 = s
    · simp [List.filter_cons, h, ih]
    · simp only [List.filter_cons]
      rw [if_pos (by simp [bne_iff_ne, h])]
      simp only [List.lookup]
      have hbeq : (s == kv.1) = false := by
        simp only [beq_eq_false_iff_ne, ne_eq]
        exact fun he => h he.symm
      rw [hbeq]
      exact ih

/-- C6 counterexample: selling with the empty-string symbol on an empty
portfolio — no holding exists under the trimmed symbol — fails with
`ValueError` from `_normalize_symbol`, not with `PortfolioNotFoundError` as
the claim states for every call. -/
theorem c6_counterexample_empty_symbol :
    portSell [] "" 1 1 = .error .valueError
    ∧ portSell [] "" 1 1 ≠ .error .portfolioNotFound := by
  constructor
  · rfl
  · intro h
    simp [portSell, normSymbol] at h

/-- C6 (amended): for every `Portfolio.sell` call whose symbol is non-empty
(an empty symbol raises `ValueError` in `_normalize_symbol` before lookup):
a missing holding under the trimmed symbol fails with
`PortfolioNotFoundError`; otherwise the call delegates to `Holding.sell`,
propagating its failure, and on success returns its realized P/L and removes
the holding from the map whenever its resulting quantity is exactly zero.
The final conjunct instantiates the full-sale case concretely: selling the
whole position `3 @ 5.00` at `5.50` returns P/L `1.50` and removes the
holding. -/
theorem c6_portfolio_sell_amended :
    (∀ (hs : List (String × Holding)) (sym : String) (q p : ℚ), sym ≠ "" →
      (hs.lookup (pyStrip sym) = none → portSell hs sym q p = .error .portfolioNotFound)
      ∧ (∀ h e, hs.lookup (pyStrip sym) = some h → Holding.sell h q p = .error e →
          portSell hs sym q p = .error (.holdingErr e))
      ∧ (∀ h h2 pnl, hs.lookup (pyStrip sym) = some h → Holding.sell h q p = .ok (h2, pnl) →
          ∃ hs2, portSell hs sym q p = .ok (hs2, pnl)
            ∧ (h2.quantity = 0 → hs2.lookup (pyStrip sym) = none)))
    ∧ (∃ hs2, portSell [("MSFT", ⟨"MSFT", 3, 5⟩)] "MSFT" 3 (11/2) = .ok (hs2, 3/2)
        ∧ hs2.lookup "MSFT" = none) := by
  constructor
  · intro hs sym q p hsym
    refine ⟨?_, ?_, ?_⟩
    · intro hnone
      simp [portSell, normSymbol, hsym, hnone]
    · intro h e hsome hsell
      simp [portSell, normSymbol, hsym, hsome, hsell]
    · intro h h2 pnl hsome hsell
      by_cases hz : h2.quantity = 0
      · refine ⟨hs.filter (fun kv => kv.1 != pyStrip sym), ?_,
          fun _ => lookup_filter_self hs (pyStrip sym)⟩
        simp [portSell, normSymbol, hsym, hsome, hsell, hz]
      · refine ⟨hs.map (fun kv => if kv.1 == pyStrip sym then (kv.1, h2) else kv), ?_,
          fun hq0 => absurd hq0 hz⟩
        simp [portSell, normSymbol, hsym, hsome, hsell, hz]
  · have hq3 : quantQty (3 : ℚ) = 3 := quantQty_eq_self ⟨300000000, by norm_num⟩
    have hp : quantCent (11/2 : ℚ) = 11/2 := quantCent_eq_self ⟨550, by norm_num⟩
    have hpnl : quantCent (((11:ℚ)/2 - 5) * 3) = 3/2 := by
      have harg : ((11:ℚ)/2 - 5) * 3 = 3/2 := by norm_num
      rw [harg]
      exact quantCent_eq_self ⟨150, by norm_num⟩
    have hsell : Holding.sell ⟨"MSFT", 3, 5⟩ 3 (11/2) = .ok (⟨"MSFT", 0, 0⟩, 3/2) := by
      simp only [Holding.sell, hq3, hp]
      rw [if_neg (by norm_num), if_neg (by norm_num), if_neg (by norm_num), hpnl]
      norm_num
    have htrim : pyStrip "MSFT" = "MSFT" := rfl
    refine ⟨[], ?_, rfl⟩
    simp [portSell, normSymbol, hsell, htrim]

/-!
## Valuation — valuation.py

`ValuationEngine.portfolio_breakdown` (valuation.py lines 247-297).  The
price oracle is a function returning `none` when no service is configured or
the service raises (both surface as `ValuationError` and are caught by the
breakdown's `except ValuationError: price = None`); per-symbol overrides
take precedence and are cent-quantized by `_to_decimal_cents`, as is a
price obtained from the oracle.  Row fields keep the numeric values that the
code stringifies. -/

/-- One row of the breakdown. -/
structure BRow where
  symbol : String
  quantity : ℚ
  average_cost : ℚ
  market_price : Option ℚ
  market_value : Option ℚ
  unrealized_pl : Option ℚ
  deriving DecidableEq, Repr

/-- Price resolution inside the breakdown loop (valuation.py lines 264-269):
override if present, else oracle; an unresolvable price becomes `none`. -/
def resolvePrice (oracle : String → Option ℚ) (overrides : List (String × ℚ))
    (sym : String) : Option ℚ :=
  match overrides.lookup sym with
  | some v => some (quantCent v)
  | none =>
    match oracle sym with
    | some p => some (quantCent p)
    | none => none

/-- One iteration of the breakdown loop (valuation.py lines 260-291):
`holding_market_value` is `quantize(quantity * price)` and
`holding_unrealized_pl` is `quantize((price - average_cost) * quantity)`;
with an unresolvable price all three price-dependent fields are `None`. -/
def breakdownRow (oracle : String → Option ℚ) (overrides : List (String × ℚ))
    (h : Holding) : BRow :=
  match resolvePrice oracle overrides h.symbol with
  | some p =>
    ⟨h.symbol, h.quantity, h.average_cost, some p,
      some (quantCent (h.quantity * p)),
      some (quantCent ((p - h.average_cost) * h.quantity))⟩
  | none => ⟨h.symbol, h.quantity, h.average_cost, none, none, none⟩

/-- `ValuationEngine.portfolio_breakdown`: one row per holding plus the two
aggregates accumulated only from rows whose price resolved, each quantized
to cents at the end. -/
def portfolioBreakdown (oracle : String → Option ℚ) (overrides : List (String × ℚ))
    (hs : List Holding) : List BRow × ℚ × ℚ :=
  let rows := hs.map (breakdownRow oracle overrides)
  let tmv := rows.foldl (fun acc r => match r.market_value with | some v => acc + v | none => acc) 0
  let tupl := rows.foldl (fun acc r => match r.unrealized_pl with | some v => acc + v | none => acc) 0
  (rows, quantCent tmv, quantCent tupl)

theorem foldl_mv (rows : List BRow) (a : ℚ) :
    rows.foldl (fun acc r => match r.market_value with | some v => acc + v | none => acc) a
      = a + (rows.filterMap (fun r => r.market_value)).sum := by
  induction rows generalizing a with
  | nil => simp
  | cons r rest ih =>
    simp only [List.foldl_cons, List.filterMap_cons]
    cases hf : r.market_value with
    | none => rw [ih]
    | some v =>
      rw [ih]
      simp [List.sum_cons]
      ring

theorem foldl_upl (rows : List BRow) (a : ℚ) :
    rows.foldl (fun acc r => match r.unrealized_pl with | some v => acc + v | none => acc) a
      = a + (rows.filterMap (fun r => r.unrealized_pl)).sum := by
  induction rows generalizing a with
  | nil => simp
  | cons r rest ih =>
    simp only [List.foldl_cons, List.filterMap_cons]
    cases hf : r.unrealized_pl with
    | none => rw [ih]
    | some v =>
      rw [ih]
      simp [List.sum_cons]
      ring

theorem breakdownRow_mv (o : String → Option ℚ) (ov : List (String × ℚ)) (h : Holding) :
    (breakdownRow o ov h).market_value
      = (resolvePrice o ov h.symbol).map (fun p => quantCent (h.quantity * p)) := by
  unfold breakdownRow
  cases hp : resolvePrice o ov h.symbol <;> simp

theorem breakdownRow_upl (o : String → Option ℚ) (ov : List (String × ℚ)) (h : Holding) :
    (breakdownRow o ov h).unrealized_pl
      = (resolvePrice o ov h.symbol).map (fun p => quantCent ((p - h.average_cost) * h.quantity)) := by
  unfold breakdownRow
  cases hp : resolvePrice o ov h.symbol <;> simp

/-- C7: the breakdown always returns one row per holding (the function is
total — a missing price never aborts the call); a holding whose price is
unresolvable gets `market_price = none` and `market_value = none` (and
`unrealized_pl = none`); a resolvable one gets the quantized price and
market value; and both aggregates sum exactly the rows with resolvable
prices.  The last conjunct is scenario E: of two holdings only `AAPL`
resolves, the `ZZZ` row is all-`none`, and the aggregates come from `AAPL`
alone. -/
theorem c7_breakdown_partial_failure_tolerance :
    (∀ (o : String → Option ℚ) (ov : List (String × ℚ)) (hs : List Holding),
      (portfolioBreakdown o ov hs).1 = hs.map (breakdownRow o ov)
      ∧ (∀ h : Holding, resolvePrice o ov h.symbol = none →
          (breakdownRow o ov h).market_price = none
          ∧ (breakdownRow o ov h).market_value = none
          ∧ (breakdownRow o ov h).unrealized_pl = none)
      ∧ (∀ (h : Holding) (p : ℚ), resolvePrice o ov h.symbol = some p →
          (breakdownRow o ov h).market_price = some p
          ∧ (breakdownRow o ov h).market_value = some (quantCent (h.quantity * p)))
      ∧ (portfolioBreakdown o ov hs).2.1
          = quantCent ((hs.filterMap
              (fun h => (resolvePrice o ov h.symbol).map
                (fun p => quantCent (h.quantity * p)))).sum)
      ∧ (portfolioBreakdown o ov hs).2.2
          = quantCent ((hs.filterMap
              (fun h => (resolvePrice o ov h.symbol).map
                (fun p => quantCent ((p - h.average_cost) * h.quantity)))).sum))
    ∧ portfolioBreakdown (fun s => if s = "AAPL" then some 150 else none) []
        [⟨"AAPL", 2, 100⟩, ⟨"ZZZ", 3, 10⟩]
      = ([⟨"AAPL", 2, 100, some 150, some 300, some 100⟩,
          ⟨"ZZZ", 3, 10, none, none, none⟩], 300, 100) := by
  constructor
  · intro o ov hs
    refine ⟨rfl, ?_, ?_, ?_, ?_⟩
    · intro h hnone
      unfold breakdownRow
      rw [hnone]
      exact ⟨rfl, rfl, rfl⟩
    · intro h p hp
      unfold breakdownRow
      rw [hp]
      exact ⟨rfl, rfl⟩
    · show quantCent ((hs.map (breakdownRow o ov)).foldl _ 0) = _
      rw [foldl_mv, zero_add, List.filterMap_map]
      have hfun : ((fun r : BRow => r.market_value) ∘ breakdownRow o ov)
          = fun h => (resolvePrice o ov h.symbol).map (fun p => quantCent (h.quantity * p)) := by
        funext h
        exact breakdownRow_mv o ov h
      rw [hfun]
    · show quantCent ((hs.map (breakdownRow o ov)).foldl _ 0) = _
      rw [foldl_upl, zero_add, List.filterMap_map]
      have hfun : ((fun r : BRow => r.unrealized_pl) ∘ breakdownRow o ov)
          = fun h => (resolvePrice o ov h.symbol).map
              (fun p => quantCent ((p - h.average_cost) * h.quantity)) := by
        funext h
        exact breakdownRow_upl o ov h
      rw [hfun]
  · have e150 : quantCent (150 : ℚ) = 150 := quantCent_eq_self ⟨15000, by norm_num⟩
    have e1 : quantCent ((2:ℚ) * 150) = 300 := by
      have harg : (2:ℚ) * 150 = 300 := by norm_num
      rw [harg]
      exact quantCent_eq_self ⟨30000, by norm_num⟩
    have e2 : quantCent (((150:ℚ) - 100) * 2) = 100 := by
      have harg : ((150:ℚ) - 100) * 2 = 100 := by norm_num
      rw [harg]
      exact quantCent_eq_self ⟨10000, by norm_num⟩
    have e3 : quantCent ((0:ℚ) + 300) = 300 := by
      rw [zero_add]
      exact quantCent_eq_self ⟨30000, by norm_num⟩
    have e4 : quantCent ((0:ℚ) + 100) = 100 := by
      rw [zero_add]
      exact quantCent_eq_self ⟨10000, by norm_num⟩
    simp [portfolioBreakdown, breakdownRow, resolvePrice, e150, e1, e2, e3, e4]
    exact ⟨quantCent_eq_self ⟨30000, by norm_num⟩, quantCent_eq_self ⟨10000, by norm_num⟩⟩

/-!
## Operation validators — validators.py
-/

inductive ValErr
  | invalidAmount
  | unsupportedSymbol
  | insufficientFunds
  | insufficientHoldings
  deriving DecidableEq, Repr

/-- `_to_decimal_cents` (validators.py lines 31-41): `none` stands for a
balance/amount object `Decimal(...)` cannot convert, which raises
`InvalidAmountError`. -/
def toDecimalCents (v : Option ℚ) : Except ValErr ℚ :=
  match v with
  | none => .error .invalidAmount
  | some q => .ok (quantCent q)

/-- `OperationValidator.validate_amount` (validators.py lines 116-126) on an
already numeric amount. -/
def validate_amount (amount : ℚ) : Except ValErr ℚ :=
  let dec := quantCent amount
  if dec ≤ 0 then .error .invalidAmount else .ok dec

/-- `OperationValidator.validate_sufficient_funds` (validators.py lines
138-153): the amount must validate as positive; a balance that cannot be
converted is treated as insufficient funds; otherwise `amount > balance` is
insufficient funds. -/
def validate_sufficient_funds (balance : Option ℚ) (amount : ℚ) : Except ValErr ℚ :=
  match validate_amount amount with
  | .error e => .error e
  | .ok amt =>
    match toDecimalCents balance with
    | .error _ => .error .insufficientFunds
    | .ok bal => if bal < amt then .error .insufficientFunds else .ok amt

/-- `OperationValidator.validate_symbol` (validators.py lines 103-114) for a
validator constructed with no supported-symbols set (the `TradingEngine`
default): any non-empty string is accepted and uppercased. -/
def validate_symbol (symbol : String) : Except ValErr String :=
  if symbol = "" then .error .unsupportedSymbol else .ok (pyUpper symbol)

/-- C10: whenever the amount validates as positive and the balance input is
unconvertible (`none`), `validate_sufficient_funds` raises
`InsufficientFundsError` — not an invalid-amount error.  The second conjunct
evaluates the concrete instance amount `5`, balance unconvertible. -/
theorem c10_unconvertible_balance_is_insufficient :
    (∀ a : ℚ, 0 < quantCent a →
      validate_sufficient_funds none a = .error .insufficientFunds)
    ∧ validate_sufficient_funds none 5 = .error .insufficientFunds := by
  constructor
  · intro a ha
    unfold validate_sufficient_funds validate_amount toDecimalCents
    rw [if_neg (not_le.mpr ha)]
  · have h5 : quantCent (5:ℚ) = 5 := quantCent_eq_self ⟨500, by norm_num⟩
    unfold validate_sufficient_funds validate_amount toDecimalCents
    rw [h5, if_neg (by norm_num)]

/-!
## Read aliasing — portfolio.py `list_holdings`, accounts.py `get_balance`

Python reference semantics are modelled with an explicit heap: addresses are
indices into `heap`, and the portfolio's `_holdings` dict maps symbols to
addresses.  `list(self._holdings.values())` (portfolio.py lines 82-85) builds
a FRESH list whose elements are the SAME `Holding` objects, so the model of
the returned list is the list of those addresses; mutating a returned element
is a heap write at its address.  `get_balance` (accounts.py lines 128-134)
returns `Decimal(self.balance)`, a value copy of an immutable object. -/

structure PState where
  heap : List Holding
  portfolio : List (String × Nat)
  deriving DecidableEq, Repr

/-- `Portfolio.list_holdings`: the addresses of the holdings, in a fresh
list (a shallow copy of `dict.values()`). -/
def listHoldingsAddrs (s : PState) : List Nat := s.portfolio.map Prod.snd

/-- What the portfolio reads for a symbol: follow the dict entry to the heap. -/
def getHolding (s : PState) (sym : String) : Option Holding :=
  (s.portfolio.lookup sym).bind fun a => s.heap.get? a

/-- Mutating the `Holding` object at address `a` (e.g. through an element of
the list `list_holdings` returned). -/
def writeHolding (s : PState) (a : Nat) (h : Holding) : PState :=
  { s with heap := s.heap.set a h }

/-- `Account.get_balance`: `Decimal(self.balance)` — a value copy. -/
def getBalance (balance : ℚ) : ℚ := balance

theorem lookup_mem_snd (l : List (String × Nat)) (sym : String) (a : Nat)
    (h : l.lookup sym = some a) : a ∈ l.map Prod.snd := by
  induction l with
  | nil => cases h
  | cons kv rest ih =>
    simp only [List.lookup] at h
    cases hbeq : sym == kv.1 with
    | true =>
      rw [hbeq] at h
      cases h
      simp
    | false =>
      rw [hbeq] at h
      simp only [List.map_cons, List.mem_cons]
      exact Or.inr (ih h)

theorem get?_set_self (l : List Holding) (i : Nat) (x : Holding) (h : i < l.length) :
    (l.set i x).get? i = some x := by
  induction l generalizing i with
  | nil => cases h
  | cons y rest ih =>
    cases i with
    | zero => rfl
    | succ j =>
      simp only [List.set, List.get?]
      exact ih j (Nat.lt_of_succ_lt_succ h)

/-- C9 counterexample: in the state whose heap holds one `AAPL` holding of
quantity `2` at address `0` and whose portfolio maps `AAPL` to it, address
`0` is an element of the list `list_holdings` returns, and mutating that
element (setting quantity `5`) changes what the portfolio reads for `AAPL`
— the element is a live alias, so reads are not copies all the way down. -/
theorem c9_counterexample_live_alias :
    0 ∈ listHoldingsAddrs ⟨[⟨"AAPL", 2, 100⟩], [("AAPL", 0)]⟩
    ∧ getHolding ⟨[⟨"AAPL", 2, 100⟩], [("AAPL", 0)]⟩ "AAPL" = some ⟨"AAPL", 2, 100⟩
    ∧ getHolding (writeHolding ⟨[⟨"AAPL", 2, 100⟩], [("AAPL", 0)]⟩ 0 ⟨"AAPL", 5, 100⟩) "AAPL"
        = some ⟨"AAPL", 5, 100⟩
    ∧ getHolding (writeHolding ⟨[⟨"AAPL", 2, 100⟩], [("AAPL", 0)]⟩ 0 ⟨"AAPL", 5, 100⟩) "AAPL"
        ≠ getHolding ⟨[⟨"AAPL", 2, 100⟩], [("AAPL", 0)]⟩ "AAPL" := by
  refine ⟨by simp [listHoldingsAddrs], rfl, rfl, ?_⟩
  intro hcontra
  simp only [getHolding, writeHolding] at hcontra
  have h25 : (⟨"AAPL", 5, 100⟩ : Holding) = ⟨"AAPL", 2, 100⟩ := by
    injection hcontra
  have : (5 : ℚ) = 2 := congrArg Holding.quantity h25
  norm_num at this

/-- C9 (amended): the list `list_holdings` returns is itself fresh and
`get_balance` returns a value copy of the (immutable) balance, but the
`Holding` elements of the returned list are live aliases of the portfolio's
internal state: every holding's address appears in the returned list, and a
write through that address is visible to a subsequent portfolio read. -/
theorem c9_reads_amended :
    (∀ (s : PState) (sym : String) (a : Nat) (h2 : Holding),
      s.portfolio.lookup sym = some a → a < s.heap.length →
      a ∈ listHoldingsAddrs s ∧ getHolding (writeHolding s a h2) sym = some h2)
    ∧ (∀ b : ℚ, getBalance b = b) := by
  constructor
  · intro s sym a h2 hlook hlen
    refine ⟨lookup_mem_snd s.portfolio sym a hlook, ?_⟩
    simp only [getHolding, writeHolding, hlook, Option.bind]
    exact get?_set_self s.heap a h2 hlen
  · intro b
    rfl

/-!
## Trading engine — trading.py

`TradingEngine.buy` (trading.py lines 87-178) wired to the embedded
collaborators.  `PriceService` (pricing.py) is the deterministic
AAPL/TSLA/GOOGL map.  The transaction factory `Transaction.trade` that
`buy` calls does not exist as code in transaction.py — the whole block of
factory methods sits inside the line-178 comment — so at run time the call
raises `AttributeError`, caught and re-raised as `TradingError("invalid
trade parameters")`; `tradeFactory` below embeds the factory from that
comment text, the reading most favourable to the claim, and the engine
still cannot reach the funds check's success path (see `c4_...`). -/

/-- Python `str.lower()` for the ASCII sides used by the backend. -/
def pyLower (s : String) : String := ⟨s.data.map Char.toLower⟩

inductive EngErr
  | unsupportedSymbol
  | priceUnavailable
  | priceRequired
  | invalidTradeParams
  | insufficientFunds
  | fundsValidationFailed
  | withdrawFailed
  | portfolioNotFound
  | portfolioUpdateFailed
  | inconsistentState
  deriving DecidableEq, Repr

/-- `PriceService.get_share_price` (pricing.py lines 73-90): case-insensitive
lookup in the fixed price map, `UnsupportedSymbolError` otherwise. -/
def getSharePrice (symbol : String) : Except ValErr ℚ :=
  if symbol = "" then .error .unsupportedSymbol
  else
    let up := pyUpper symbol
    if up = "AAPL" then .ok 150
    else if up = "TSLA" then .ok (72050/100)
    else if up = "GOOGL" then .ok (280075/100)
    else .error .unsupportedSymbol

/-- `TradingEngine._resolve_price` (trading.py lines 68-85). -/
def resolvePriceEng (symbol : String) (price : Option ℚ) (useMarket : Bool) :
    Except EngErr ℚ :=
  if useMarket then
    match getSharePrice symbol with
    | .ok p => .ok p
    | .error _ => .error .priceUnavailable
  else
    match price with
    | none => .error .priceRequired
    | some p => .ok p

/-- `Transaction.trade` as written in the factory block embedded in the
line-178 comment of transaction.py: lowercase and check the side, quantize
quantity/price/profit-loss, and construct (running `__post_init__`); the
`amount` field is NOT passed, so it keeps its default `0.00`. -/
def tradeFactory (account_id : Option String) (side : String)
    (quantity price : Option ℚ) (profit_loss : Option ℚ) : Except TxErr Tx :=
  let s := pyLower side
  if ¬ (s = "buy" ∨ s = "sell") then .error .invalidSide
  else
    match quantity with
    | none => .error .invalidQuantityValue
    | some q =>
      match price with
      | none => .error .invalidPriceValue
      | some p =>
        txPostInit { kind := s, account_id := account_id,
                     quantity := some (quantQty q), price := some (quantCent p),
                     profit_loss := profit_loss.map quantCent }

/-- Modelled from the spec: `account_service.py` is missing from the sources
(trading.py imports `AccountService`; only its tests and callers are
present), and the repositories are in-memory stores whose `save`/`get` do
not fail.  The engine state is the one account's balance, the (optional)
portfolio holdings under the requested portfolio id, and the transaction
store's contents. -/
structure EngSt where
  balance : ℚ
  portfolio : Option (List (String × Holding))
  ledger : List Tx
  deriving DecidableEq, Repr

/-- `TradingEngine.buy` (trading.py lines 87-178): validate the symbol,
resolve the price, construct the `buy` transaction, validate funds (an
`InsufficientFundsError` is re-raised as such, any other failure becomes
`TradingError("funds validation failed")`), withdraw, update the portfolio
(refunding the withdrawal on failure), and append the entry to the
transaction store.  The returned state is the state after the call,
compensations included. -/
def engineBuy (st : EngSt) (account_id : String) (symbol : String)
    (quantity : Option ℚ) (price : Option ℚ) (useMarket : Bool) :
    EngSt × Except EngErr Tx :=
  match validate_symbol symbol with
  | .error _ => (st, .error .unsupportedSymbol)
  | .ok norm =>
    match resolvePriceEng norm price useMarket with
    | .error e => (st, .error e)
    | .ok rp =>
      match tradeFactory (some account_id) "buy" quantity (some rp) none with
      | .error _ => (st, .error .invalidTradeParams)
      | .ok tx =>
        match validate_sufficient_funds (some st.balance) tx.amount with
        | .error .insufficientFunds => (st, .error .insufficientFunds)
        | .error _ => (st, .error .fundsValidationFailed)
        | .ok _ =>
          match acctWithdraw st.balance tx.amount with
          | .error .insufficientFunds => (st, .error .insufficientFunds)
          | .error _ => (st, .error .withdrawFailed)
          | .ok b1 =>
            match st.portfolio with
            | none =>
              match acctDeposit b1 tx.amount with
              | .ok b2 => ({ st with balance := b2 }, .error .portfolioNotFound)
              | .error _ => ({ st with balance := b1 }, .error .inconsistentState)
            | some hs =>
              match portBuy hs norm quantity rp with
              | .error _ =>
                match acctDeposit b1 tx.amount with
                | .ok b2 => ({ st with balance := b2 }, .error .portfolioUpdateFailed)
                | .error _ => ({ st with balance := b1 }, .error .inconsistentState)
              | .ok hs2 =>
                ({ balance := b1, portfolio := some hs2, ledger := st.ledger ++ [tx] },
                  .ok tx)

/-- C4: the claim fails on the code.  Whatever the balance, a market buy of
AAPL never fails with an insufficiency error and never mutates state: the
trade entry's `amount` stays at the default `0.00` (the factory does not
pass it and `__post_init__` skips trade kinds entirely), so
`validate_sufficient_funds` rejects the amount as non-positive and the
engine raises the generic `TradingError("funds validation failed")` before
any withdrawal — with the literal source it fails even earlier, since the
factory block sits inside a comment and `Transaction.trade` does not exist.
In the concrete scenario (balance `10.00`, AAPL at `150.00`, quantity `1`)
the balance stays `10.00` and no holding is created, but the error is not
an insufficiency error. -/
theorem c4_buy_never_insufficient_funds :
    (∀ (st : EngSt) (aid : String) (q : ℚ),
      engineBuy st aid "AAPL" (some q) none true = (st, .error .fundsValidationFailed))
    ∧ engineBuy ⟨10, some [], []⟩ "acct-2" "AAPL" (some 1) none true
        = (⟨10, some [], []⟩, .error .fundsValidationFailed)
    ∧ EngErr.fundsValidationFailed ≠ EngErr.insufficientFunds := by
  have main : ∀ (st : EngSt) (aid : String) (q : ℚ),
      engineBuy st aid "AAPL" (some q) none true = (st, .error .fundsValidationFailed) := by
    intro st aid q
    have h1 : validate_symbol "AAPL" = .ok "AAPL" := rfl
    have h2 : resolvePriceEng "AAPL" none true = .ok 150 := rfl
    have h3 : tradeFactory (some aid) "buy" (some q) (some (150:ℚ)) none
        = .ok ⟨"buy", some aid, some (quantQty q), some (quantCent 150), 0, none⟩ := rfl
    have h4 : validate_sufficient_funds (some st.balance) (0:ℚ) = .error .invalidAmount := by
      unfold validate_sufficient_funds validate_amount
      rw [quantCent_zero, if_pos le_rfl]
    simp only [engineBuy, h1, h2, h3, h4]
  exact ⟨main, main ⟨10, some [], []⟩ "acct-2" 1, by intro h; cases h⟩
